import Mathlib

/-!
Shallow embedding of the gai-cli commit orchestration (src/index.ts).

The program is a single linear CLI flow.  All external collaborators
(git subprocess calls, the relay HTTP endpoint, the Gemini SDK) are
modelled by a `World` oracle that fixes what each external call would
return; the program itself becomes a pure function from the parsed
options and the world to a trace of side effects plus a final outcome.
`handleError` in the source prints a message and calls `process.exit(1)`;
it is modelled by the `Outcome.failure` constructor carrying the
user-facing message and the underlying error detail.  Chalk styling is
dropped: printed lines are recorded as their plain text.
-/

namespace Gai

/-- Parsed command-line options (commander `.option` declarations,
src/index.ts lines 160-174).  Absent optional string flags are `none`;
`lang` defaults to "english" at parse time. -/
structure Options where
  message : Option String
  all : Bool
  amend : Bool
  dryRun : Bool
  verbose : Bool
  type : Option String
  scope : Option String
  lang : String
deriving DecidableEq, Repr

/-- Result of the relay `fetch` at src/index.ts lines 83-99.
`throwErr` covers any exception while fetching, reading the body, or
parsing JSON; `notOk` is a response with `res.ok` false (status and body
text); `ok` is a parsed JSON body whose `message` field is `none` when
absent and `some s` when present as the string `s`. -/
inductive RelayResult where
  | throwErr (e : String)
  | notOk (status : Nat) (text : String)
  | ok (message : Option String)
deriving DecidableEq, Repr

/-- Result of `ai.models.generateContent` at src/index.ts lines 140-143.
`error` covers a thrown exception; `ok none` is a response whose `text`
field is undefined; `ok (some t)` has text `t`. -/
inductive GeminiResult where
  | error (e : String)
  | ok (text : Option String)
deriving DecidableEq, Repr

instance {ε α : Type} [DecidableEq ε] [DecidableEq α] : DecidableEq (Except ε α) := fun x y =>
  match x, y with
  | .ok a, .ok b => if h : a = b then .isTrue (by rw [h]) else .isFalse (by simp [h])
  | .error a, .error b => if h : a = b then .isTrue (by rw [h]) else .isFalse (by simp [h])
  | .ok _, .error _ => .isFalse (by simp)
  | .error _, .ok _ => .isFalse (by simp)

/-- The external world: the environment credential and what each
external call would return if performed.  Each `Except` error carries
the diagnostic string of the failing tool. -/
structure World where
  GEMINI_API_KEY : Option String
  addAllResult : Except String Unit
  stagedDiffResult : Except String String
  lastCommitResult : Except String String
  relayResult : RelayResult
  geminiResult : GeminiResult
  commitResult : Except String Unit
deriving DecidableEq, Repr

/-- Side effects the flow can perform, in order.  `execGit args` is an
invocation of the git executable with the given argument list;
`relayPost` is the POST to the relay endpoint with the JSON payload
fields; `geminiCall` is the direct Gemini SDK call; `printLine` is a
console line (chalk styling dropped). -/
inductive Effect where
  | execGit (args : List String)
  | relayPost (url : String) (diff : String) (lang : String)
      (type : Option String) (scope : Option String) (previousMsg : Option String)
  | geminiCall (model : String) (prompt : String)
  | printLine (s : String)
deriving DecidableEq, Repr

/-- Final outcome of an invocation.  `success` is normal completion
(exit code 0), `earlyExit0` is the explicit `process.exit(0)` on the
no-staged-changes path, `failure msg detail` is `handleError` (exit
code 1) with its user-facing message and optional underlying detail. -/
inductive Outcome where
  | success
  | earlyExit0
  | failure (msg : String) (detail : Option String)
deriving DecidableEq, Repr

/-- Process exit code of an outcome. -/
def exitCode : Outcome → Nat
  | .success => 0
  | .earlyExit0 => 0
  | .failure _ _ => 1

/-- JavaScript truthiness of an optional environment/option string:
undefined and the empty string are falsy, all other strings truthy. -/
def truthy : Option String → Bool
  | none => false
  | some s => !s.isEmpty

/-- Whitespace test covering the characters JavaScript trim removes
that can occur in tool output here (space, tab, carriage return,
newline). -/
def isWs (c : Char) : Bool := c = ' ' || c = '\t' || c = '\r' || c = '\n'

/-- Model of the JavaScript `trim()` string method: drop leading and
trailing whitespace.  Defined structurally over the character list so
it evaluates by kernel reduction. -/
def jsTrim (s : String) : String :=
  String.mk (((s.data.dropWhile isWs).reverse.dropWhile isWs).reverse)

/-- Base URL of the relay endpoint (src/index.ts line 10). -/
def baseApiUrl : String := "https://gen.bernabe.dev"

/-- Prompt construction of the Gemini path, src/index.ts lines 111-138.
The conditional instruction fragments follow JavaScript truthiness of
the optional parameters, as in the source ternaries. -/
def buildPrompt (diff : String) (lang : String)
    (type : Option String) (scope : Option String) (previousMsg : Option String) : String :=
  let languageInstruction := "The commit message must be in " ++ lang ++ "."
  let typeInstruction :=
    if truthy type then "The commit type must be \"" ++ type.getD "" ++ "\"." else ""
  let scopeInstruction :=
    if truthy scope then "The commit scope must be \"" ++ scope.getD "" ++ "\"." else ""
  let previousInstruction :=
    if truthy previousMsg then
      "- The previous commit message was:\n\"\"\"" ++ previousMsg.getD "" ++
        "\"\"\"\n- Incorporate and update it as needed."
    else ""
  "\nAnalyze the following git diff and generate a Conventional Commit message that accurately describes the changes made.\n" ++
  "- The message must be concise and informative, following the Conventional Commits format.\n" ++
  "- " ++ languageInstruction ++ "\n" ++
  "- " ++ typeInstruction ++ "\n" ++
  "- " ++ scopeInstruction ++ "\n" ++
  "- The commit message subject line must not exceed 100 characters.\n" ++
  "- Use imperative mood (e.g., \"add feature\" instead of \"added feature\").\n" ++
  "- If the commit fixes a bug, use \"fix\".\n" ++
  "- If the commit introduces a new feature, use \"feat\".\n" ++
  "- If the commit includes refactoring, use \"refactor\".\n" ++
  "- If the commit adds tests, use \"test\".\n" ++
  "- If the commit updates documentation, use \"docs\".\n" ++
  "- Do not include unnecessary details; keep it clear and to the point.\n" ++
  previousInstruction ++
  "\n- **Return ONLY the raw commit message text without any formatting, quotes, backticks, or delimiters.**\n\nHere is the git diff:\n\n" ++
  diff ++ "\n"

/-- The generateCommitMessage function, src/index.ts lines 72-157.
Returns the effects it performs and either the produced message or the
message of the error it throws.  When the credential is falsy it takes
the relay path; otherwise the Gemini SDK path.  Note the relay path
returns `data.message` unchanged (no trim), rejecting it only when
falsy; the Gemini path trims `response.text` and rejects an empty
trim. -/
def generateCommitMessage (diff : String) (lang : String)
    (type : Option String) (scope : Option String) (previousMsg : Option String)
    (w : World) : List Effect × Except String String :=
  if !truthy w.GEMINI_API_KEY then
    ([Effect.relayPost baseApiUrl diff lang type scope previousMsg],
      match w.relayResult with
      | .throwErr e => .error ("Fallback API failed: " ++ e)
      | .notOk status text =>
          .error ("Fallback API failed: API request failed with status " ++
            toString status ++ ": " ++ text)
      | .ok none => .error "Fallback API failed: Fallback API returned an empty message."
      | .ok (some m) =>
          if m.isEmpty then
            .error "Fallback API failed: Fallback API returned an empty message."
          else .ok m)
  else
    let prompt := buildPrompt diff lang type scope previousMsg
    ([Effect.geminiCall "gemini-2.5-flash" prompt],
      match w.geminiResult with
      | .error e => .error ("Google Gemini API call failed: " ++ e)
      | .ok none =>
          .error "Google Gemini API call failed: Gemini returned an empty or invalid response."
      | .ok (some t) =>
          if (jsTrim t).isEmpty then
            .error "Google Gemini API call failed: Gemini returned an empty or invalid response."
          else .ok (jsTrim t))

/-- The getStagedDiff function, src/index.ts lines 35-45: run
`git diff --staged`, trim the stdout; on tool failure `handleError`. -/
def getStagedDiff (w : World) : List Effect × Except Outcome String :=
  ([Effect.execGit ["diff", "--staged"]],
    match w.stagedDiffResult with
    | .ok out => .ok (jsTrim out)
    | .error e =>
        .error (Outcome.failure
          "Could not retrieve staged diff. Are you in a git repository?" (some e)))

/-- The getLastCommitMessage function, src/index.ts lines 51-61: run
`git log -1 --pretty=%B`, trim the stdout; on tool failure
`handleError`. -/
def getLastCommitMessage (w : World) : List Effect × Except Outcome String :=
  ([Effect.execGit ["log", "-1", "--pretty=%B"]],
    match w.lastCommitResult with
    | .ok out => .ok (jsTrim out)
    | .error e =>
        .error (Outcome.failure
          "Could not retrieve the last commit message. Are there any commits in this repository yet?"
          (some e)))

/-- Commit argument construction, src/index.ts lines 228-230: start from
["commit"], push "--amend" when amending, then push "-m" and the
message as a single argument. -/
def gitArgsFor (amend : Bool) (commitMessage : String) : List String :=
  ("commit" :: (if amend then ["--amend"] else [])) ++ ["-m", commitMessage]

/-- Final stage of the action, src/index.ts lines 227-254: print the
COMMIT READY banner with the message; on dry-run print the would-be
command and finish; otherwise execute `git commit` and propagate a
failure through `handleError`. -/
def finishCommit (opts : Options) (commitMessage : String) (w : World) :
    List Effect × Outcome :=
  if opts.dryRun then
    ([Effect.printLine ("\n COMMIT READY \n" ++ commitMessage),
      Effect.printLine "\nDry Run: The following command will not be executed:",
      Effect.printLine ("$ git " ++
        String.intercalate " " (gitArgsFor opts.amend commitMessage))],
      Outcome.success)
  else
    ([Effect.printLine ("\n COMMIT READY \n" ++ commitMessage),
      Effect.printLine "\nExecuting commit...",
      Effect.execGit (gitArgsFor opts.amend commitMessage)] ++
      (match w.commitResult with
       | .ok _ => [Effect.printLine "\n✔ Commit completed successfully!"]
       | .error _ => []),
      match w.commitResult with
      | .ok _ => Outcome.success
      | .error e => Outcome.failure "The git commit command failed." (some e))

/-- Message resolution, src/index.ts lines 212-225: use the literal
`--message` option when truthy, otherwise announce and call
generateCommitMessage; a generation error reaches the top-level catch,
which invokes `handleError` with "An unexpected error occurred". -/
def resolveMessage (opts : Options) (w : World) (stagedDiff : String)
    (previousMsg : Option String) : List Effect × Except Outcome String :=
  if truthy opts.message then
    ([], .ok (opts.message.getD ""))
  else
    (Effect.printLine "Generating commit message with AI..." ::
      (generateCommitMessage stagedDiff opts.lang opts.type opts.scope previousMsg w).1 ++
      (match (generateCommitMessage stagedDiff opts.lang opts.type opts.scope previousMsg w).2 with
       | .ok _ => if opts.verbose then [Effect.printLine "Message generated successfully."] else []
       | .error _ => []),
      match (generateCommitMessage stagedDiff opts.lang opts.type opts.scope previousMsg w).2 with
      | .ok m => .ok m
      | .error e => .error (Outcome.failure "An unexpected error occurred" (some e)))

/-- Tail of the action after the staged diff and amend context are
available: resolve the message then finish the commit. -/
def runWithContext (opts : Options) (w : World) (stagedDiff : String)
    (previousMsg : Option String) : List Effect × Outcome :=
  match (resolveMessage opts w stagedDiff previousMsg).2 with
  | .error o => ((resolveMessage opts w stagedDiff previousMsg).1, o)
  | .ok commitMessage =>
      ((resolveMessage opts w stagedDiff previousMsg).1 ++
        (finishCommit opts commitMessage w).1,
        (finishCommit opts commitMessage w).2)

/-- Middle of the action, src/index.ts lines 192-225: capture the
staged diff; exit 0 when it is empty and amend is not requested; fetch
the previous commit message when amending; then resolve and commit. -/
def runFromDiff (opts : Options) (w : World) : List Effect × Outcome :=
  match (getStagedDiff w).2 with
  | .error o => ((getStagedDiff w).1, o)
  | .ok stagedDiff =>
      if stagedDiff.isEmpty && !opts.amend then
        ((getStagedDiff w).1 ++
          [Effect.printLine
            "No staged changes to commit. Use '-a' to add all changes or stage files manually."],
          Outcome.earlyExit0)
      else
        if opts.amend then
          match (getLastCommitMessage w).2 with
          | .error o =>
              ((getStagedDiff w).1 ++
                (if opts.verbose then
                  [Effect.printLine "Fetching last commit message for context..."] else []) ++
                (getLastCommitMessage w).1, o)
          | .ok prev =>
              ((getStagedDiff w).1 ++
                (if opts.verbose then
                  [Effect.printLine "Fetching last commit message for context..."] else []) ++
                (getLastCommitMessage w).1 ++
                (runWithContext opts w stagedDiff (some prev)).1,
                (runWithContext opts w stagedDiff (some prev)).2)
        else
          ((getStagedDiff w).1 ++ (runWithContext opts w stagedDiff none).1,
            (runWithContext opts w stagedDiff none).2)

/-- The whole program action, src/index.ts lines 175-260: optional
verbose banner, optional stage-all (`git add -A`, fatal on failure),
then the diff-driven flow. -/
def run (opts : Options) (w : World) : List Effect × Outcome :=
  if opts.all then
    match w.addAllResult with
    | .error e =>
        ((if opts.verbose then [Effect.printLine "Starting commit process..."] else []) ++
          (if opts.verbose then [Effect.printLine "Staging all changes..."] else []) ++
          [Effect.execGit ["add", "-A"]],
          Outcome.failure "Failed to stage all changes." (some e))
    | .ok _ =>
        ((if opts.verbose then [Effect.printLine "Starting commit process..."] else []) ++
          (if opts.verbose then [Effect.printLine "Staging all changes..."] else []) ++
          [Effect.execGit ["add", "-A"]] ++ (runFromDiff opts w).1,
          (runFromDiff opts w).2)
  else
    ((if opts.verbose then [Effect.printLine "Starting commit process..."] else []) ++
      (runFromDiff opts w).1,
      (runFromDiff opts w).2)

/-- Recognizer for a generation-backend effect (relay or Gemini). -/
def isBackendCall : Effect → Bool
  | .relayPost _ _ _ _ _ _ => true
  | .geminiCall _ _ => true
  | _ => false

/-- Recognizer for the relay POST effect. -/
def isRelayCall : Effect → Bool
  | .relayPost _ _ _ _ _ _ => true
  | _ => false

/-- Recognizer for the direct Gemini SDK effect. -/
def isGeminiCall : Effect → Bool
  | .geminiCall _ _ => true
  | _ => false

/-- Recognizer for execution of the git commit command. -/
def isCommitExec : Effect → Bool
  | .execGit ("commit" :: _) => true
  | _ => false

/-- Recognizer for any git invocation. -/
def isGitCall : Effect → Bool
  | .execGit _ => true
  | _ => false

/-- Number of generation-backend calls in a trace. -/
def backendCalls (t : List Effect) : Nat := t.countP isBackendCall

/-- Number of relay calls in a trace. -/
def relayCalls (t : List Effect) : Nat := t.countP isRelayCall

/-- Number of direct Gemini calls in a trace. -/
def geminiCalls (t : List Effect) : Nat := t.countP isGeminiCall

/-- Number of git commit executions in a trace. -/
def commitExecs (t : List Effect) : Nat := t.countP isCommitExec

/-- The previous-commit context passed into message resolution: the
trimmed last commit message when amending and available, nothing
otherwise. -/
def prevMsgOf (opts : Options) (w : World) : Option String :=
  if opts.amend then
    match w.lastCommitResult with
    | .ok out => some (jsTrim out)
    | .error _ => none
  else none

/-- Sample options record with every flag at its default. -/
def sampleOpts : Options :=
  { message := none, all := false, amend := false, dryRun := false,
    verbose := false, type := none, scope := none, lang := "english" }

/-- Sample world in which every external call succeeds. -/
def sampleWorld : World :=
  { GEMINI_API_KEY := none, addAllResult := .ok (), stagedDiffResult := .ok "diff body",
    lastCommitResult := .ok "old message", relayResult := .ok (some "feat: x"),
    geminiResult := .ok (some "feat: y"), commitResult := .ok () }

/-! Shared auxiliary lemmas and sample inputs. -/

/-- Counting distributes over a branch on a decidable condition. -/
theorem countP_ite (p : Effect → Bool) (b : Prop) [Decidable b] (l1 l2 : List Effect) :
    List.countP p (if b then l1 else l2) =
      if b then List.countP p l1 else List.countP p l2 := by
  by_cases h : b <;> simp [h]

/-- Trace of generateCommitMessage: exactly one backend effect,
selected by credential truthiness. -/
theorem generate_trace_eq (diff lang : String)
    (type scope previousMsg : Option String) (w : World) :
    (generateCommitMessage diff lang type scope previousMsg w).1 =
      if truthy w.GEMINI_API_KEY then
        [Effect.geminiCall "gemini-2.5-flash" (buildPrompt diff lang type scope previousMsg)]
      else [Effect.relayPost baseApiUrl diff lang type scope previousMsg] := by
  unfold generateCommitMessage
  cases h : truthy w.GEMINI_API_KEY <;> simp [h]

/-- An option that is truthy is some string, recovered by getD. -/
theorem truthy_eq_some_getD (o : Option String) (h : truthy o = true) :
    o = some (o.getD "") := by
  cases o <;> simp [truthy] at h ⊢

/-- Message resolution performs no git invocation. -/
theorem resolveMessage_no_execGit (opts : Options) (w : World) (d : String)
    (p : Option String) (args : List String) :
    Effect.execGit args ∉ (resolveMessage opts w d p).1 := by
  unfold resolveMessage
  split
  · simp
  · simp [generate_trace_eq, countP_ite]
    constructor
    · split <;> simp
    · split <;> simp

/-- Every git invocation of finishCommit carries exactly the
constructed commit argument list. -/
theorem finishCommit_execGit_eq (opts : Options) (m : String) (w : World)
    (args : List String)
    (h : Effect.execGit args ∈ (finishCommit opts m w).1) :
    args = gitArgsFor opts.amend m := by
  unfold finishCommit at h
  split at h
  · simp at h
  · simp at h
    rcases h with h | h
    · exact h
    · split at h <;> simp at h

/-- Every git invocation of runWithContext is the commit invocation of
the successfully resolved message. -/
theorem runWithContext_execGit (opts : Options) (w : World) (d : String)
    (p : Option String) (args : List String)
    (h : Effect.execGit args ∈ (runWithContext opts w d p).1) :
    ∃ m, (resolveMessage opts w d p).2 = Except.ok m ∧
      args = gitArgsFor opts.amend m := by
  unfold runWithContext at h
  split at h
  · exact absurd h (resolveMessage_no_execGit opts w d p args)
  · rw [List.mem_append] at h
    rcases h with h | h
    · exact absurd h (resolveMessage_no_execGit opts w d p args)
    · next m hm => exact ⟨m, hm, finishCommit_execGit_eq opts m w args h⟩

/-- Every git invocation of runFromDiff is the staged-diff capture, the
last-commit fetch, or the commit invocation of the resolved message. -/
theorem runFromDiff_execGit (opts : Options) (w : World) (args : List String)
    (h : Effect.execGit args ∈ (runFromDiff opts w).1) :
    args = ["diff", "--staged"] ∨ args = ["log", "-1", "--pretty=%B"] ∨
    ∃ d p m, (resolveMessage opts w d p).2 = Except.ok m ∧
      args = gitArgsFor opts.amend m := by
  unfold runFromDiff at h
  repeat' split at h
  all_goals simp [getStagedDiff, getLastCommitMessage, countP_ite] at h
  all_goals first
    | exact Or.inl h
    | exact h.elim Or.inl (fun h2 => Or.inr (Or.inl h2))
    | exact h.elim Or.inl (fun h2 =>
        h2.elim (fun h3 => Or.inr (Or.inl h3)) (fun h3 => Or.inr (Or.inr
          (let ⟨m, hm, ha⟩ := runWithContext_execGit opts w _ _ args h3
           ⟨_, _, m, hm, ha⟩))))
    | exact h.elim Or.inl (fun h2 => Or.inr (Or.inr
        (let ⟨m, hm, ha⟩ := runWithContext_execGit opts w _ _ args h2
         ⟨_, _, m, hm, ha⟩)))
/-- Every git invocation of the whole run is stage-all, the staged-diff
capture, the last-commit fetch, or the commit invocation of the
resolved message. -/
theorem run_execGit (opts : Options) (w : World) (args : List String)
    (h : Effect.execGit args ∈ (run opts w).1) :
    args = ["add", "-A"] ∨ args = ["diff", "--staged"] ∨
    args = ["log", "-1", "--pretty=%B"] ∨
    ∃ d p m, (resolveMessage opts w d p).2 = Except.ok m ∧
      args = gitArgsFor opts.amend m := by
  unfold run at h
  repeat' split at h
  all_goals simp [countP_ite] at h
  all_goals first
    | exact Or.inl h
    | exact Or.inr (runFromDiff_execGit opts w args h)
    | exact h.elim Or.inl (fun h2 => Or.inr (runFromDiff_execGit opts w args h2))

/-- A successfully resolved message under a truthy literal option is
that literal option. -/
theorem resolveMessage_ok_literal (opts : Options) (w : World) (d : String)
    (p : Option String) (m : String)
    (ht : truthy opts.message = true)
    (h : (resolveMessage opts w d p).2 = Except.ok m) :
    opts.message = some m := by
  unfold resolveMessage at h
  rw [ht] at h
  simp at h
  rw [← h]
  exact truthy_eq_some_getD opts.message ht

/-- Under the dry-run flag no git commit invocation appears anywhere in
the trace of the run. -/
theorem dryRun_no_commitExec (opts : Options) (w : World)
    (hDry : opts.dryRun = true) :
    commitExecs (run opts w).1 = 0 := by
  unfold run runFromDiff runWithContext resolveMessage finishCommit getStagedDiff
    getLastCommitMessage
  simp only [hDry, if_true]
  repeat' split
  all_goals simp [commitExecs, List.countP_append, countP_ite, isCommitExec, gitArgsFor,
    generate_trace_eq]

/-- The trace of runFromDiff always begins with the staged-diff
capture. -/
theorem runFromDiff_trace_cons (opts : Options) (w : World) :
    ∃ t, (runFromDiff opts w).1 = Effect.execGit ["diff", "--staged"] :: t := by
  unfold runFromDiff getStagedDiff
  repeat' split
  all_goals exact ⟨_, rfl⟩

/-- C4: generateCommitMessage contacts exactly one backend, selected by
credential truthiness at entry: a truthy GEMINI_API_KEY yields one
direct Gemini call and no relay call, a falsy one yields one relay call
and no Gemini call; in particular no failure is ever followed by an
attempt on the other path. -/
theorem backend_selection_exclusive (diff lang : String)
    (type scope previousMsg : Option String) (w : World) :
    relayCalls (generateCommitMessage diff lang type scope previousMsg w).1 =
      (if truthy w.GEMINI_API_KEY then 0 else 1) ∧
    geminiCalls (generateCommitMessage diff lang type scope previousMsg w).1 =
      (if truthy w.GEMINI_API_KEY then 1 else 0) := by
  unfold generateCommitMessage
  cases h : truthy w.GEMINI_API_KEY <;>
    simp [h, relayCalls, geminiCalls, isRelayCall, isGeminiCall]

/-- C9: when GEMINI_API_KEY is unset or set to the empty string the
relay path is selected (one relay call, no direct Gemini call): the
selection tests truthiness, so an empty credential behaves as absent. -/
theorem empty_credential_selects_relay (diff lang : String)
    (type scope previousMsg : Option String) (w : World)
    (h : w.GEMINI_API_KEY = none ∨ w.GEMINI_API_KEY = some "") :
    relayCalls (generateCommitMessage diff lang type scope previousMsg w).1 = 1 ∧
    geminiCalls (generateCommitMessage diff lang type scope previousMsg w).1 = 0 := by
  have hk : truthy w.GEMINI_API_KEY = false := by
    rcases h with h | h <;> rw [h] <;> rfl
  unfold generateCommitMessage
  simp [hk, relayCalls, geminiCalls, isRelayCall, isGeminiCall]

/-- Witness for C9 at a concrete world whose credential is the empty
string. -/
theorem empty_credential_selects_relay_witness :
    relayCalls (generateCommitMessage "d" "english" none none none
      { sampleWorld with GEMINI_API_KEY := some "" }).1 = 1 ∧
    geminiCalls (generateCommitMessage "d" "english" none none none
      { sampleWorld with GEMINI_API_KEY := some "" }).1 = 0 :=
  empty_credential_selects_relay "d" "english" none none none
    { sampleWorld with GEMINI_API_KEY := some "" } (Or.inr rfl)

/-- C1: when getStagedDiff returns an empty staged diff and the amend
flag is not set, the process exits with code 0 and the trace contains
no generation-backend call (direct or relay) and no git commit
execution. -/
theorem empty_diff_no_amend_clean_exit (opts : Options) (w : World) (s : String)
    (hAmend : opts.amend = false)
    (hAdd : opts.all = true → w.addAllResult = Except.ok ())
    (hDiff : w.stagedDiffResult = Except.ok s)
    (hEmpty : jsTrim s = "") :
    exitCode (run opts w).2 = 0 ∧ backendCalls (run opts w).1 = 0 ∧
      commitExecs (run opts w).1 = 0 := by
  have hE : ("" : String).isEmpty = true := rfl
  unfold run runFromDiff getStagedDiff
  cases hall : opts.all
  · simp [hall, hDiff, hEmpty, hE, hAmend, backendCalls, commitExecs,
      List.countP_append, countP_ite, isBackendCall, isCommitExec, exitCode]
  · simp [hall, hAdd hall, hDiff, hEmpty, hE, hAmend, backendCalls, commitExecs,
      List.countP_append, countP_ite, isBackendCall, isCommitExec, exitCode]

/-- Witness for C1 at a concrete world whose staged diff is whitespace
only. -/
theorem empty_diff_no_amend_clean_exit_witness :
    jsTrim "  " = "" ∧
    (exitCode (run sampleOpts { sampleWorld with stagedDiffResult := Except.ok "  " }).2 = 0 ∧
      backendCalls (run sampleOpts { sampleWorld with stagedDiffResult := Except.ok "  " }).1 = 0 ∧
      commitExecs (run sampleOpts { sampleWorld with stagedDiffResult := Except.ok "  " }).1 = 0) :=
  ⟨by decide,
    empty_diff_no_amend_clean_exit sampleOpts
      { sampleWorld with stagedDiffResult := Except.ok "  " } "  "
      rfl (fun _ => rfl) rfl (by decide)⟩

/-- Auxiliary: a string other than "" has isEmpty false. -/
theorem isEmpty_false_of_ne (m : String) (hNe : m ≠ "") : m.isEmpty = false := by
  cases h : m.isEmpty
  · rfl
  · exact absurd ((String.isEmpty_iff m).mp h) hNe

/-- C2 counterexample: an invocation that supplies the literal commit
message "" via --message still invokes the generation backend, because
the option is tested for JavaScript truthiness rather than presence;
so generation is not skipped for every supplied literal message. -/
theorem literal_message_empty_still_generates :
    ({ sampleOpts with message := some "" } : Options).message.isSome = true ∧
    backendCalls (run { sampleOpts with message := some "" } sampleWorld).1 = 1 := by
  constructor
  · rfl
  · decide

/-- C2 amended: for every invocation that supplies a non-empty literal
commit message via --message, the generation stage is never invoked
(no relay and no direct backend call in the trace), regardless of all
other flags and of the external world. -/
theorem nonempty_literal_message_skips_generation (opts : Options) (w : World) (m : String)
    (hMsg : opts.message = some m) (hNe : m ≠ "") :
    backendCalls (run opts w).1 = 0 := by
  have ht : truthy opts.message = true := by
    rw [hMsg]
    simp [truthy, isEmpty_false_of_ne m hNe]
  unfold run runFromDiff runWithContext resolveMessage finishCommit getStagedDiff
    getLastCommitMessage
  simp only [ht, if_true]
  repeat' split
  all_goals simp [backendCalls, List.countP_append, countP_ite, isBackendCall, gitArgsFor]

/-- Witness for C2 amended at a concrete literal message. -/
theorem nonempty_literal_message_skips_generation_witness :
    ({ sampleOpts with message := some "docs: update" } : Options).message =
      some "docs: update" ∧
    backendCalls (run { sampleOpts with message := some "docs: update" } sampleWorld).1 = 0 :=
  ⟨rfl,
    nonempty_literal_message_skips_generation
      { sampleOpts with message := some "docs: update" } sampleWorld "docs: update"
      rfl (by decide)⟩

/-- C3: with the dry-run flag set the git commit command is never
executed anywhere in the run; the dry-run preview for a resolved
message m prints exactly "$ git " followed by the space-joined
argument list gitArgsFor, and a non-dry-run invocation with identical
options and the identical resolved message m executes git with exactly
that argument list (the message one literal argument). -/
theorem dry_run_no_commit_exact_preview (opts : Options) (w : World) (m : String)
    (hDry : opts.dryRun = true) :
    commitExecs (run opts w).1 = 0 ∧
    (finishCommit opts m w).1 =
      [Effect.printLine ("\n COMMIT READY \n" ++ m),
       Effect.printLine "\nDry Run: The following command will not be executed:",
       Effect.printLine ("$ git " ++ String.intercalate " " (gitArgsFor opts.amend m))] ∧
    Effect.execGit (gitArgsFor opts.amend m) ∈
      (finishCommit { opts with dryRun := false } m w).1 := by
  refine ⟨dryRun_no_commitExec opts w hDry, ?_, ?_⟩
  · simp [finishCommit, hDry]
  · unfold finishCommit
    split
    all_goals simp_all

/-- Witness for C3 at concrete dry-run options and a concrete resolved
message. -/
theorem dry_run_no_commit_exact_preview_witness :
    commitExecs (run { sampleOpts with dryRun := true } sampleWorld).1 = 0 ∧
    (finishCommit { sampleOpts with dryRun := true } "feat: x" sampleWorld).1 =
      [Effect.printLine ("\n COMMIT READY \n" ++ "feat: x"),
       Effect.printLine "\nDry Run: The following command will not be executed:",
       Effect.printLine ("$ git " ++ String.intercalate " "
         (gitArgsFor ({ sampleOpts with dryRun := true } : Options).amend "feat: x"))] ∧
    Effect.execGit (gitArgsFor ({ sampleOpts with dryRun := true } : Options).amend "feat: x") ∈
      (finishCommit { { sampleOpts with dryRun := true } with dryRun := false }
        "feat: x" sampleWorld).1 :=
  dry_run_no_commit_exact_preview { sampleOpts with dryRun := true } sampleWorld "feat: x" rfl

/-- C5 counterexample: with a falsy credential and a relay response
whose message field is the whitespace string "   ", generateCommitMessage
returns "   " unchanged, a message that is empty after trimming: the
relay path neither trims the returned text nor rejects a
whitespace-only message. -/
theorem relay_whitespace_message_returned :
    (generateCommitMessage "d" "english" none none none
      { sampleWorld with relayResult := RelayResult.ok (some "   ") }).2 =
      Except.ok "   " ∧
    jsTrim "   " = "" := by
  constructor
  · decide
  · decide

/-- C5 amended: both paths reject an empty result, but only the direct
path trims.  A message produced on the direct path is the trimmed
Gemini response text and is non-empty; a message produced on the relay
path is exactly the relay response's message field, unchanged and
untrimmed, rejected only when it is absent or the empty string (so a
whitespace-only relay message is returned as-is). -/
theorem generation_result_characterization (diff lang : String)
    (type scope previousMsg : Option String) (w : World) (msg : String)
    (hOk : (generateCommitMessage diff lang type scope previousMsg w).2 = Except.ok msg) :
    if truthy w.GEMINI_API_KEY then
      ∃ t, w.geminiResult = GeminiResult.ok (some t) ∧ msg = jsTrim t ∧ msg.isEmpty = false
    else w.relayResult = RelayResult.ok (some msg) ∧ msg.isEmpty = false := by
  unfold generateCommitMessage at hOk
  cases hk : truthy w.GEMINI_API_KEY <;> simp only [hk] at hOk ⊢
  · simp only [Bool.not_false, if_true] at hOk
    cases hr : w.relayResult <;> simp [hr] at hOk
    case ok message =>
      cases message with
      | none => simp at hOk
      | some s =>
          by_cases he : s.isEmpty = true
          · simp [he] at hOk
          · simp [he] at hOk
            subst hOk
            exact ⟨rfl, by simpa using he⟩
  · simp only [Bool.not_true, if_false] at hOk
    cases hg : w.geminiResult <;> simp [hg] at hOk
    case ok text =>
      cases text with
      | none => simp at hOk
      | some t =>
          by_cases he : (jsTrim t).isEmpty = true
          · simp [he] at hOk
          · simp [he] at hOk
            have hf : (jsTrim t).isEmpty = false := by simpa using he
            exact ⟨t, rfl, hOk.symm, hOk ▸ hf⟩

/-- Witness for C5 amended on the relay path with a concrete
successful generation. -/
theorem generation_result_characterization_witness :
    (if truthy (sampleWorld.GEMINI_API_KEY) then
      ∃ t, sampleWorld.geminiResult = GeminiResult.ok (some t) ∧
        "feat: x" = jsTrim t ∧ ("feat: x").isEmpty = false
    else sampleWorld.relayResult = RelayResult.ok (some "feat: x") ∧
      ("feat: x").isEmpty = false) :=
  generation_result_characterization "d" "english" none none none sampleWorld "feat: x"
    (by decide)

/-- C6: with the amend flag set in a repository with no prior commit
(the log command fails), the flow ends in the repository-access
failure of getLastCommitMessage with exit code 1, and the trace
contains no generation-backend call and no commit execution. -/
theorem amend_no_history_fails_before_generation (opts : Options) (w : World) (e : String)
    (hAmend : opts.amend = true)
    (hAdd : opts.all = true → w.addAllResult = Except.ok ())
    (hDiff : ∃ s, w.stagedDiffResult = Except.ok s)
    (hNoCommit : w.lastCommitResult = Except.error e) :
    (run opts w).2 = Outcome.failure
      "Could not retrieve the last commit message. Are there any commits in this repository yet?"
      (some e) ∧
    exitCode (run opts w).2 = 1 ∧
    backendCalls (run opts w).1 = 0 ∧ commitExecs (run opts w).1 = 0 := by
  obtain ⟨s, hs⟩ := hDiff
  unfold run runFromDiff getStagedDiff getLastCommitMessage
  cases hall : opts.all
  · simp [hall, hs, hAmend, hNoCommit, exitCode, backendCalls, commitExecs,
      List.countP_append, countP_ite, isBackendCall, isCommitExec]
  · simp [hall, hAdd hall, hs, hAmend, hNoCommit, exitCode, backendCalls, commitExecs,
      List.countP_append, countP_ite, isBackendCall, isCommitExec]

/-- Witness for C6 at a concrete amend invocation over a world with no
commit history. -/
theorem amend_no_history_fails_before_generation_witness :
    ((run { sampleOpts with amend := true }
        { sampleWorld with lastCommitResult := Except.error "fatal: no commits" }).2 =
      Outcome.failure
        "Could not retrieve the last commit message. Are there any commits in this repository yet?"
        (some "fatal: no commits") ∧
      exitCode (run { sampleOpts with amend := true }
        { sampleWorld with lastCommitResult := Except.error "fatal: no commits" }).2 = 1 ∧
      backendCalls (run { sampleOpts with amend := true }
        { sampleWorld with lastCommitResult := Except.error "fatal: no commits" }).1 = 0 ∧
      commitExecs (run { sampleOpts with amend := true }
        { sampleWorld with lastCommitResult := Except.error "fatal: no commits" }).1 = 0) :=
  amend_no_history_fails_before_generation { sampleOpts with amend := true }
    { sampleWorld with lastCommitResult := Except.error "fatal: no commits" }
    "fatal: no commits" rfl (fun _ => rfl) ⟨"diff body", rfl⟩ rfl

/-- C7: every git commit invocation executed by the run carries the
argument list "commit", then "--amend" exactly when the amend flag is
set, then "-m" and the resolved message as one single unchanged list
element; when a truthy literal --message was supplied, that resolved
message is the literal one. -/
theorem commit_invocation_args (opts : Options) (w : World) (args : List String)
    (hMem : Effect.execGit args ∈ (run opts w).1)
    (hHead : args.head? = some "commit") :
    ∃ m, args = "commit" :: ((if opts.amend then ["--amend"] else []) ++ ["-m", m]) ∧
      m ∈ args ∧
      (truthy opts.message = true → opts.message = some m) := by
  rcases run_execGit opts w args hMem with h | h | h | ⟨d, p, m, hm, hargs⟩
  · subst h; exact absurd hHead (by decide)
  · subst h; exact absurd hHead (by decide)
  · subst h; exact absurd hHead (by decide)
  · refine ⟨m, ?_, ?_, ?_⟩
    · simpa [gitArgsFor] using hargs
    · subst hargs; simp [gitArgsFor]
    · intro ht
      exact resolveMessage_ok_literal opts w d p m ht hm

/-- Witness for C7 at the commit invocation of a concrete successful
run. -/
theorem commit_invocation_args_witness :
    ∃ m, ["commit", "-m", "feat: x"] =
        "commit" :: ((if sampleOpts.amend then ["--amend"] else []) ++ ["-m", m]) ∧
      m ∈ ["commit", "-m", "feat: x"] ∧
      (truthy sampleOpts.message = true → sampleOpts.message = some m) :=
  commit_invocation_args sampleOpts sampleWorld ["commit", "-m", "feat: x"]
    (by decide) (by decide)

/-- C8 counterexample: an invocation with both --all and --dry-run does
not always exit 0: when the selected generation backend fails (here the
relay throws), the invocation exits 1 even under dry-run. -/
theorem all_dry_run_can_exit_nonzero :
    ({ sampleOpts with all := true, dryRun := true } : Options).all = true ∧
    ({ sampleOpts with all := true, dryRun := true } : Options).dryRun = true ∧
    exitCode (run { sampleOpts with all := true, dryRun := true }
      { sampleWorld with relayResult := RelayResult.throwErr "network unreachable" }).2
      = 1 := by
  refine ⟨rfl, rfl, ?_⟩
  decide

/-- C8 amended: with both --all and --dry-run set, the stage-all step
is still executed and is the first git invocation; when it succeeds the
staged diff is captured immediately after it; the commit execution is
suppressed throughout; and the invocation exits 0 provided stage-all
and the diff capture succeed, the previous-message fetch succeeds when
amending, and message resolution succeeds. -/
theorem all_dry_run_stage_first_no_commit (opts : Options) (w : World)
    (hAll : opts.all = true) (hDry : opts.dryRun = true) :
    ((run opts w).1.filter isGitCall).head? = some (Effect.execGit ["add", "-A"]) ∧
    (w.addAllResult = Except.ok () →
      ((run opts w).1.filter isGitCall).take 2 =
        [Effect.execGit ["add", "-A"], Effect.execGit ["diff", "--staged"]]) ∧
    commitExecs (run opts w).1 = 0 ∧
    (∀ s, w.addAllResult = Except.ok () → w.stagedDiffResult = Except.ok s →
      (opts.amend = true → ∃ p, w.lastCommitResult = Except.ok p) →
      (∃ m, (resolveMessage opts w (jsTrim s) (prevMsgOf opts w)).2 = Except.ok m) →
      exitCode (run opts w).2 = 0) := by
  refine ⟨?_, ?_, dryRun_no_commitExec opts w hDry, ?_⟩
  · unfold run
    cases hadd : w.addAllResult <;>
      cases hver : opts.verbose <;>
        simp [hAll, hadd, hver, isGitCall]
  · intro hAdd
    obtain ⟨t, ht⟩ := runFromDiff_trace_cons opts w
    unfold run
    cases hver : opts.verbose <;>
      simp [hAll, hAdd, hver, ht, isGitCall]
  · intro s hAdd hs hPrev hRes
    obtain ⟨m, hm⟩ := hRes
    unfold run
    simp only [hAll, if_true, hAdd]
    unfold runFromDiff getStagedDiff
    simp only [hs]
    by_cases hemp : ((jsTrim s).isEmpty && !opts.amend) = true
    · simp [hemp, exitCode]
    · simp only [hemp, if_false]
      cases hamend : opts.amend
      · simp only [hamend, Bool.false_eq_true, if_false]
        have hpm : prevMsgOf opts w = none := by simp [prevMsgOf, hamend]
        rw [hpm] at hm
        unfold runWithContext
        simp only [hm]
        unfold finishCommit
        simp [hDry, exitCode]
      · obtain ⟨p, hp⟩ := hPrev hamend
        simp only [hamend, if_true]
        unfold getLastCommitMessage
        simp only [hp]
        have hpm : prevMsgOf opts w = some (jsTrim p) := by simp [prevMsgOf, hamend, hp]
        rw [hpm] at hm
        unfold runWithContext
        simp only [hm]
        unfold finishCommit
        simp [hDry, exitCode]

/-- Witness for C8 amended at concrete --all --dry-run options over the
all-successful sample world. -/
theorem all_dry_run_stage_first_no_commit_witness :
    (((run { sampleOpts with all := true, dryRun := true } sampleWorld).1.filter
        isGitCall).head? = some (Effect.execGit ["add", "-A"]) ∧
    (sampleWorld.addAllResult = Except.ok () →
      ((run { sampleOpts with all := true, dryRun := true } sampleWorld).1.filter
          isGitCall).take 2 =
        [Effect.execGit ["add", "-A"], Effect.execGit ["diff", "--staged"]]) ∧
    commitExecs (run { sampleOpts with all := true, dryRun := true } sampleWorld).1 = 0 ∧
    (∀ s, sampleWorld.addAllResult = Except.ok () →
      sampleWorld.stagedDiffResult = Except.ok s →
      (({ sampleOpts with all := true, dryRun := true } : Options).amend = true →
        ∃ p, sampleWorld.lastCommitResult = Except.ok p) →
      (∃ m, (resolveMessage { sampleOpts with all := true, dryRun := true } sampleWorld
        (jsTrim s)
        (prevMsgOf { sampleOpts with all := true, dryRun := true } sampleWorld)).2 =
          Except.ok m) →
      exitCode (run { sampleOpts with all := true, dryRun := true } sampleWorld).2 = 0)) :=
  all_dry_run_stage_first_no_commit
    { sampleOpts with all := true, dryRun := true } sampleWorld rfl rfl

/-- C10: with the amend flag and a truthy literal --message both
supplied, the last-commit fetch is still executed; its returned text is
never used (two worlds differing only in that text produce identical
traces and outcomes); and when the repository has no prior commit the
invocation exits 1 without any generation call. -/
theorem amend_with_literal_message_fetches_log (opts : Options) (w : World)
    (hAmend : opts.amend = true) (hMsg : truthy opts.message = true)
    (hAdd : opts.all = true → w.addAllResult = Except.ok ())
    (hDiff : ∃ s, w.stagedDiffResult = Except.ok s) :
    Effect.execGit ["log", "-1", "--pretty=%B"] ∈ (run opts w).1 ∧
    (∀ s1 s2, run opts { w with lastCommitResult := Except.ok s1 } =
      run opts { w with lastCommitResult := Except.ok s2 }) ∧
    (∀ e, w.lastCommitResult = Except.error e →
      exitCode (run opts w).2 = 1 ∧ backendCalls (run opts w).1 = 0) := by
  obtain ⟨s, hs⟩ := hDiff
  refine ⟨?_, ?_, ?_⟩
  · cases hall : opts.all
    · cases hlc : w.lastCommitResult <;>
        simp [run, runFromDiff, getStagedDiff, getLastCommitMessage, runWithContext,
          hall, hs, hAmend, hlc, countP_ite]
    · cases hlc : w.lastCommitResult <;>
        simp [run, runFromDiff, getStagedDiff, getLastCommitMessage, runWithContext,
          hall, hAdd hall, hs, hAmend, hlc, countP_ite]
  · intro s1 s2
    cases hall : opts.all <;>
      simp [run, runFromDiff, getStagedDiff, getLastCommitMessage, runWithContext,
        resolveMessage, finishCommit, gitArgsFor, hall, hs, hAmend, hMsg, hAdd, countP_ite]
  · intro e hlc
    cases hall : opts.all
    · simp [run, runFromDiff, getStagedDiff, getLastCommitMessage,
        hall, hs, hAmend, hlc, exitCode, backendCalls, List.countP_append, countP_ite,
        isBackendCall]
    · simp [run, runFromDiff, getStagedDiff, getLastCommitMessage,
        hall, hAdd hall, hs, hAmend, hlc, exitCode, backendCalls, List.countP_append,
        countP_ite, isBackendCall]

/-- Witness for C10 at a concrete amend-plus-literal-message
invocation. -/
theorem amend_with_literal_message_fetches_log_witness :
    (Effect.execGit ["log", "-1", "--pretty=%B"] ∈
      (run { sampleOpts with amend := true, message := some "fix: z" } sampleWorld).1 ∧
    (∀ s1 s2,
      run { sampleOpts with amend := true, message := some "fix: z" }
        { sampleWorld with lastCommitResult := Except.ok s1 } =
      run { sampleOpts with amend := true, message := some "fix: z" }
        { sampleWorld with lastCommitResult := Except.ok s2 }) ∧
    (∀ e, sampleWorld.lastCommitResult = Except.error e →
      exitCode (run { sampleOpts with amend := true, message := some "fix: z" }
        sampleWorld).2 = 1 ∧
      backendCalls (run { sampleOpts with amend := true, message := some "fix: z" }
        sampleWorld).1 = 0)) :=
  amend_with_literal_message_fetches_log
    { sampleOpts with amend := true, message := some "fix: z" } sampleWorld
    rfl (by decide) (fun _ => rfl) ⟨"diff body", rfl⟩

end Gai
